import Mathlib

set_option maxRecDepth 40000

/-!
Verification of the broadcast-radio core of `src/bot.py` against its
natural-language specification.

The Python module is shallowly embedded: chunk payloads are abstracted by
their append index (the `total` ghost counter of the buffer), the
`deque(maxlen=1000)` circular buffer becomes a list that drops its oldest
element on overflow, the cooperative interleaving of the single writer
(`stream_audio_to_buffer`) and a listener generator (`generate_live_audio`)
becomes an explicit action trace, and the retry / scheduler loops become
structurally recursive functions over oracles describing the outcomes of
the external world (resolver answers, ffmpeg attempt results, raised
exceptions).
-/

/-! ### LiveBuffer: `RadioState.audio_buffer = deque(maxlen=1000)` -/

/-- Capacity of the circular audio buffer (`deque(maxlen=1000)` in `RadioState`). -/
def maxlen : Nat := 1000

/-- Model of the `audio_buffer` deque.  `data` holds the retained chunks,
oldest first; a chunk is represented by its append index (a ghost sequence
number: the value of `total` at the moment it was appended).  `total`
counts every append since the buffer was last cleared. -/
structure BufModel where
  data : List Nat
  total : Nat
deriving DecidableEq, Repr

/-- Append, as in `radio_state.audio_buffer.append(chunk)`: a `deque` with `maxlen`
drops its oldest entry when an append would exceed the capacity. -/
def bufAppend (b : BufModel) : BufModel :=
  let l := b.data ++ [b.total]
  { data := l.drop (l.length - maxlen), total := b.total + 1 }

/-- Clear, as in `radio_state.audio_buffer.clear()` (used by `stop_music`). -/
def bufClear : BufModel := { data := [], total := 0 }

/-- Buffer contents after `k` appends starting from an empty buffer. -/
def bufAfter : Nat → BufModel
  | 0 => bufClear
  | k + 1 => bufAppend (bufAfter k)

/-- Read of `radio_state.audio_buffer[pos]` as a partial read
(`None` when the index is out of range, i.e. the deque is too short). -/
def bufRead (b : BufModel) (pos : Nat) : Option Nat :=
  b.data[pos]?

/-! ### BroadcastSession: `generate_live_audio` -/

/-- Events a connected listener can receive.  The code only ever emits
buffer chunks and keep-alive silence blocks; `evicted` is the fast-forward
signal the specification describes, included so its absence can be stated. -/
inductive LEvent where
  | chunk (id : Nat)
  | silence
  | evicted
deriving DecidableEq, Repr

/-- Per-listener session state: the read cursor `current_position` and the
list of events delivered so far (oldest first). -/
structure SessState where
  pos : Nat
  delivered : List LEvent
deriving DecidableEq, Repr

/-- Lookback used on connect (`len(radio_state.audio_buffer) - 10`). -/
def lookback : Nat := 10

/-- Cursor value `current_position = max(0, len(radio_state.audio_buffer) - 10)`:
initial cursor of a listener connecting while the buffer has length `L`. -/
def sessionInit (L : Nat) : Nat := max 0 (L - lookback)

/-- One iteration of the body of `generate_live_audio` while
`player_status == "playing"`:
if `current_position < len(buffer)` the chunk at the cursor is yielded and
the cursor advances; otherwise the generator waits on `chunk_event` for up
to 1 s (`timedOut = false`: the event fired, nothing is yielded;
`timedOut = true`: a silence block is yielded). -/
def listenStep (b : BufModel) (s : SessState) (timedOut : Bool) : SessState :=
  if h : s.pos < b.data.length then
    { pos := s.pos + 1, delivered := s.delivered ++ [LEvent.chunk (b.data[s.pos])] }
  else if timedOut then
    { s with delivered := s.delivered ++ [LEvent.silence] }
  else s

/-- Interleaved actions of the writer task (`stream_audio_to_buffer`
appending one chunk) and one listener task (one `generate_live_audio`
iteration). -/
inductive Act where
  | append
  | listen (timedOut : Bool)
deriving DecidableEq, Repr

/-- One interleaving step of the writer and the listener over the shared
buffer. -/
def traceStep : BufModel × SessState → Act → BufModel × SessState
  | (b, s), .append => (bufAppend b, s)
  | (b, s), .listen t => (b, listenStep b s t)

/-- Run an interleaving schedule from a given buffer and session state. -/
def runTrace (b0 : BufModel) (s0 : SessState) (acts : List Act) : BufModel × SessState :=
  acts.foldl traceStep (b0, s0)

/-- Number of writer appends in a schedule. -/
def countAppends (acts : List Act) : Nat :=
  (acts.filter fun a => a = Act.append).length

/-- Sequence numbers of the buffer chunks among the delivered events
(silence blocks carry no sequence number). -/
def chunkIds : List LEvent → List Nat
  | [] => []
  | .chunk i :: rest => i :: chunkIds rest
  | .silence :: rest => chunkIds rest
  | .evicted :: rest => chunkIds rest

/-! ### RadioState and the HTTP-boundary operations -/

/-- Tracks are opaque in the claims considered here; a track is
represented by an identifier. -/
abbrev Track := Nat

/-- Model of an ffmpeg `subprocess.Popen` handle: all the claims need is
whether `terminate()` has been called on it. -/
structure Proc where
  terminated : Bool
deriving DecidableEq, Repr

/-- The process-wide `RadioState` object (globals of `bot.py`).
`stream_task_running` is a ghost flag recording whether the background
`continuous_stream_loop` task is alive. -/
structure RadioState where
  current_track : Option Track
  player_status : String
  current_audio_url : Option String
  audio_buffer : BufModel
  is_streaming : Bool
  playlist : List Track
  stream_process : Option Proc
  stream_task_running : Bool
deriving DecidableEq, Repr

/-- A fresh `RadioState()` as built in the module body. -/
def initState : RadioState :=
  { current_track := none
    player_status := "stopped"
    current_audio_url := none
    audio_buffer := bufClear
    is_streaming := false
    playlist := []
    stream_process := none
    stream_task_running := false }

/-- Endpoint `POST /api/stop` (`stop_music`): terminate the ffmpeg process if one
exists, mark not streaming, clear the current track, set the status to
"stopped", and clear the audio buffer.  The background stream task is not
cancelled. -/
def stop_music (s : RadioState) : RadioState :=
  let s1 :=
    match s.stream_process with
    | some _ => { s with stream_process := some { terminated := true }, is_streaming := false }
    | none => s
  { s1 with
    current_track := none
    player_status := "stopped"
    current_audio_url := none
    audio_buffer := bufClear }

/-- The loop guard of `generate_live_audio` re-checked on every iteration
(after at most the 1 s `chunk_event` wait): while `player_status` is
"playing" the body runs, otherwise the generator exits (`none`). -/
def generate_live_audio_step (s : RadioState) (sess : SessState) (timedOut : Bool) :
    Option SessState :=
  if s.player_status = "playing" then some (listenStep s.audio_buffer sess timedOut) else none

/-! ### IngestPipeline: `stream_audio_to_buffer` -/

/-- Result of one ffmpeg attempt: the process exited with status 0, exited
with a failure status, or an exception was raised in the read loop. -/
inductive AttemptResult where
  | exitSuccess
  | exitFailure
  | exceptionRaised
deriving DecidableEq, Repr

/-- Observable effects recorded by the loop models: `spawn` is the start
of an ffmpeg process, `sleep n` is `await asyncio.sleep(n)`, and
`sleepSmall` is the 0.01 s no-data poll delay of the read loop. -/
inductive Effect where
  | spawn
  | sleep (n : Nat)
  | sleepSmall
deriving DecidableEq, Repr

/-- Retry budget of `stream_audio_to_buffer` (`max_retries = 2`). -/
def max_retries : Nat := 2

/-- Outcome of the ingestion loop: the stream completed (process exit
status 0, `break`) or the retry budget was exhausted. -/
inductive IngestExit where
  | completed
  | exhausted
deriving DecidableEq, Repr

/-- The retry loop of `stream_audio_to_buffer`:
`while retry_count < max_retries` (the guard also requires
`player_status == "playing"`; in this sequential model the status stays
"playing" for the duration of the call, `stop_music` acting only between
scheduler iterations).  `budget` is `max_retries - retry_count`, `r` the
current `retry_count`; `att r` is the result of attempt `r`.  Exit code 0
breaks out with outcome `completed`; a failure exit code or an exception
increments `retry_count` and sleeps 2 s before the guard is re-checked. -/
def ingestGo (att : Nat → AttemptResult) : Nat → Nat → IngestExit × List Effect
  | 0, _ => (.exhausted, [])
  | budget + 1, k =>
    match att k with
    | .exitSuccess => (.completed, [Effect.spawn])
    | .exitFailure =>
      let res := ingestGo att budget (k + 1)
      (res.1, Effect.spawn :: Effect.sleep 2 :: res.2)
    | .exceptionRaised =>
      let res := ingestGo att budget (k + 1)
      (res.1, Effect.spawn :: Effect.sleep 2 :: res.2)

/-- Ingestion entry `stream_audio_to_buffer(audio_url)`: run the retry loop, then set
`is_streaming = False`.  The playlist, status and current track are not
touched. -/
def stream_audio_to_buffer (att : Nat → AttemptResult) (_audio_url : String) (s : RadioState) :
    RadioState × List Effect :=
  let res := ingestGo att max_retries 0
  ({ s with is_streaming := false }, res.2)

/-! ### The read loop inside one ingestion attempt -/

/-- One observation of the chunk-read loop of `stream_audio_to_buffer`:
`process.stdout.read(4096)` returned data, returned nothing while
`process.poll() is None` (process still alive), or returned nothing after
the process terminated. -/
inductive ReadObs where
  | data (c : Nat)
  | emptyAlive
  | emptyDead
deriving DecidableEq, Repr

/-- The chunk-read loop: a nonempty read appends the chunk to the buffer;
an empty read with the process alive sleeps 0.01 s and continues without
appending; an empty read after process termination breaks out of the
loop.  Returns the chunks appended and the recorded effects. -/
def read_loop : List ReadObs → List Nat × List Effect
  | [] => ([], [])
  | .data c :: rest =>
    let res := read_loop rest
    (c :: res.1, res.2)
  | .emptyAlive :: rest =>
    let res := read_loop rest
    (res.1, Effect.sleepSmall :: res.2)
  | .emptyDead :: _ => ([], [])

/-! ### PlaylistScheduler: `continuous_stream_loop` -/

/-- One iteration of the body of `continuous_stream_loop`: if the playlist
is empty, sleep 5 s and re-check; otherwise pop the head track, set it
current with status "playing", resolve it (`get_audio_stream_url`,
abstracted by the `resolve` oracle) and either ingest the resolved URL or
re-append the track to the playlist tail and sleep 2 s. -/
def continuous_stream_iteration (resolve : Track → Option String)
    (att : Nat → AttemptResult) (s : RadioState) : RadioState × List Effect :=
  match s.playlist with
  | [] => (s, [Effect.sleep 5])
  | t :: rest =>
    let s1 := { s with playlist := rest, current_track := some t, player_status := "playing" }
    match resolve t with
    | some url => stream_audio_to_buffer att url s1
    | none => ({ s1 with playlist := rest ++ [t] }, [Effect.sleep 2])

/-- Exceptions as seen by `except Exception`: Python's `Exception`
subclasses are caught by the handler, `BaseException`-only classes
(e.g. `asyncio.CancelledError`, `KeyboardInterrupt`) are not. -/
inductive PyExn where
  | exn (msg : String)
  | baseExn (msg : String)
deriving DecidableEq, Repr

/-- The `try/except` wrapper of one `while True` iteration of
`continuous_stream_loop`: a normal body run produces the next state; a
raised `Exception` is logged, the loop sleeps 1 s and continues with the
state unchanged; a `BaseException` escapes and kills the task (`none`). -/
def guardedIteration (body : RadioState → Except PyExn RadioState) (s : RadioState) :
    Option RadioState :=
  match body s with
  | .ok s' => some s'
  | .error (.exn _) => some s
  | .error (.baseExn _) => none

/-- State of `continuous_stream_loop` after `n` iterations: `bodies k` is the
behaviour of iteration `k` (normal completion or a raised exception);
`none` means the loop task has died. -/
def continuous_stream_loop (bodies : Nat → RadioState → Except PyExn RadioState)
    (s0 : RadioState) : Nat → Option RadioState
  | 0 => some s0
  | n + 1 =>
    match continuous_stream_loop bodies s0 n with
    | some s => guardedIteration (bodies n) s
    | none => none

/-! ### SourceResolver front-end: `extract_video_id` -/

/-- Class `[a-zA-Z0-9_-]`, the character class of a bare video id. -/
def isIdChar (c : Char) : Bool := c.isAlphanum || c == '_' || c == '-'

/-- Class `[^&?/]`, complement of the characters ending a `watch?v=` capture. -/
def isSepChar (c : Char) : Bool := c == '&' || c == '?' || c == '/'

/-- Literal alternative `youtube\.com/watch\?v=` of the first pattern. -/
def watchLit : List Char :=
  ['y', 'o', 'u', 't', 'u', 'b', 'e', '.', 'c', 'o', 'm', '/',
   'w', 'a', 't', 'c', 'h', '?', 'v', '=']

/-- Literal alternative `youtu\.be/` of the first pattern. -/
def shortLit : List Char := ['y', 'o', 'u', 't', 'u', '.', 'b', 'e', '/']

/-- Literal `youtube\.com/embed/` of the second pattern. -/
def embedLit : List Char :=
  ['y', 'o', 'u', 't', 'u', 'b', 'e', '.', 'c', 'o', 'm', '/',
   'e', 'm', 'b', 'e', 'd', '/']

/-- Match a literal at the head of the input, returning the remainder. -/
def dropLit : List Char → List Char → Option (List Char)
  | [], cs => some cs
  | _ :: _, [] => none
  | l :: ls, c :: cs => if c = l then dropLit ls cs else none

/-- Try one alternative of pattern 1 at the current position: the literal
followed by a nonempty greedy `[^&?/]+` capture. -/
def tryAlt (lit : List Char) (cs : List Char) : Option (List Char) :=
  match dropLit lit cs with
  | some rest =>
    let cap := rest.takeWhile fun c => !isSepChar c
    if cap.isEmpty then none else some cap
  | none => none

/-- Pattern `(?:youtube\.com/watch\?v=|youtu\.be/)([^&?/]+)` at one
position: the alternatives are tried in order. -/
def tryPat1At (cs : List Char) : Option (List Char) :=
  match tryAlt watchLit cs with
  | some cap => some cap
  | none => tryAlt shortLit cs

/-- Scan of `re.search` for pattern 1: leftmost position at which it matches. -/
def searchPat1 : List Char → Option (List Char)
  | [] => none
  | c :: cs =>
    match tryPat1At (c :: cs) with
    | some cap => some cap
    | none => searchPat1 cs

/-- Pattern `youtube\.com/embed/([^?]+)` at one position. -/
def tryPat2At (cs : List Char) : Option (List Char) :=
  match dropLit embedLit cs with
  | some rest =>
    let cap := rest.takeWhile fun c => !(c == '?')
    if cap.isEmpty then none else some cap
  | none => none

/-- Scan of `re.search` for pattern 2. -/
def searchPat2 : List Char → Option (List Char)
  | [] => none
  | c :: cs =>
    match tryPat2At (c :: cs) with
    | some cap => some cap
    | none => searchPat2 cs

/-- Pattern `^([a-zA-Z0-9_-]{11})$`: anchored on both sides, so the whole
input must be an 11-character id (Python's `$` also matches just before a
single trailing newline). -/
def matchPat3 (cs : List Char) : Option (List Char) :=
  if cs.length = 11 ∧ ∀ c ∈ cs, isIdChar c then some cs
  else if cs.length = 12 ∧ (∀ c ∈ cs.take 11, isIdChar c) ∧ cs.getLast? = some '\n' then
    some (cs.take 11)
  else none

/-- Extraction `YouTubeAPIService.extract_video_id`: the three patterns are tried in
order; the first match wins, otherwise `None`. -/
def extract_video_id (url : String) : Option String :=
  match searchPat1 url.data with
  | some cap => some (String.mk cap)
  | none =>
    match searchPat2 url.data with
    | some cap => some (String.mk cap)
    | none => (matchPat3 url.data).map String.mk

/-- Endpoint `POST /api/play` (`play_music`): a reference from which no video id
can be extracted is rejected with HTTP 400 before anything is queued;
otherwise, if the metadata lookup (`info` oracle) fails the reply is 404,
else the track is appended to the playlist and the stream task is started
when the player is neither playing nor streaming. -/
def play_music (s : RadioState) (url : String) (info : Option Track) :
    RadioState × Except Nat Track :=
  match extract_video_id url with
  | none => (s, .error 400)
  | some _ =>
    match info with
    | none => (s, .error 404)
    | some t =>
      let s1 := { s with playlist := s.playlist ++ [t] }
      let s2 :=
        if s1.player_status ≠ "playing" ∧ ¬s1.is_streaming then
          { s1 with stream_task_running := true }
        else s1
      (s2, .ok t)

/-! ### Metadata: `parse_duration` -/

/-- Numeric value of a digit string (`int(...)` on a `\d+` capture). -/
def digitsToNat (ds : List Char) : Nat :=
  ds.foldl (fun acc c => acc * 10 + (c.toNat - '0'.toNat)) 0

/-- One optional component `(?:(\d+)X)?` of the duration pattern: a
greedy digit run immediately followed by the letter is consumed and
captured; otherwise the group matches empty and captures nothing. -/
def tryComp (letter : Char) (cs : List Char) : Option Nat × List Char :=
  match cs.takeWhile Char.isDigit, cs.dropWhile Char.isDigit with
  | [], _ => (none, cs)
  | ds, r :: rs => if r = letter then (some (digitsToNat ds), rs) else (none, cs)
  | _, [] => (none, cs)

/-- Match of `re.match(r'PT(?:(\d+)H)?(?:(\d+)M)?(?:(\d+)S)?', duration)` on the
character list of the input: anchored at the start, the literal `PT` must
lead, then the three optional groups are tried in order; `int(g or 0)` on
the captures gives `hours * 3600 + minutes * 60 + seconds`; if the match
fails entirely (`PT` missing) the result is 0. -/
def parse_duration_core : List Char → Nat
  | c1 :: c2 :: rest =>
    if c1 = 'P' ∧ c2 = 'T' then
      ((tryComp 'H' rest).1).getD 0 * 3600 +
        ((tryComp 'M' (tryComp 'H' rest).2).1).getD 0 * 60 +
        ((tryComp 'S' (tryComp 'M' (tryComp 'H' rest).2).2).1).getD 0
    else 0
  | _ => 0

/-- Duration parser `YouTubeAPIService.parse_duration`. -/
def parse_duration (s : String) : Nat := parse_duration_core s.data

/-- Value of an optional duration component (`int(match.group(i) or 0)`). -/
def valComp : Option (List Char) → Nat
  | none => 0
  | some ds => digitsToNat ds

/-- Rendering of an optional duration component into the input string. -/
def renderComp (letter : Char) : Option (List Char) → List Char
  | none => []
  | some ds => ds ++ [letter]

/-! ### Helper lemmas -/

lemma ingestGo_fail_step (att : Nat → AttemptResult) (budget k : Nat)
    (h : att k ≠ AttemptResult.exitSuccess) :
    ingestGo att (budget + 1) k =
      ((ingestGo att budget (k + 1)).1,
        Effect.spawn :: Effect.sleep 2 :: (ingestGo att budget (k + 1)).2) := by
  cases hk : att k <;> simp [ingestGo, hk] at h ⊢

lemma ingestGo_spawn_le (att : Nat → AttemptResult) (budget k : Nat) :
    (ingestGo att budget k).2.count Effect.spawn ≤ budget := by
  induction budget generalizing k with
  | zero => simp [ingestGo]
  | succ b ih =>
    cases hk : att k with
    | exitSuccess => simp [ingestGo, hk]
    | exitFailure =>
      simp only [ingestGo, hk, List.count_cons]
      have := ih (k + 1)
      simp
      omega
    | exceptionRaised =>
      simp only [ingestGo, hk, List.count_cons]
      have := ih (k + 1)
      simp
      omega

/-! ### Claim theorems -/

/-- C3: when source resolution fails for the popped track, the scheduler
re-appends it to the playlist tail exactly once, records a 2 s delay, does
not start any ingestion, and the iteration ends (control returns to the
top of the loop, the idle-polling point). -/
theorem c3_resolution_failure_requeues (s : RadioState) (t : Track) (rest : List Track)
    (resolve : Track → Option String) (att : Nat → AttemptResult)
    (hq : s.playlist = t :: rest) (hr : resolve t = none) :
    (continuous_stream_iteration resolve att s).1.playlist = rest ++ [t] ∧
    (continuous_stream_iteration resolve att s).1.playlist.count t = rest.count t + 1 ∧
    (continuous_stream_iteration resolve att s).2 = [Effect.sleep 2] ∧
    (continuous_stream_iteration resolve att s).1.current_track = some t ∧
    Effect.spawn ∉ (continuous_stream_iteration resolve att s).2 := by
  simp [continuous_stream_iteration, hq, hr, List.count_append]

theorem c3_witness :
    (({ initState with playlist := [7, 8] } : RadioState).playlist = 7 :: [8]) ∧
    (continuous_stream_iteration (fun _ => none) (fun _ => AttemptResult.exitSuccess)
        { initState with playlist := [7, 8] }).1.playlist = [8] ++ [7] ∧
    (continuous_stream_iteration (fun _ => none) (fun _ => AttemptResult.exitSuccess)
        { initState with playlist := [7, 8] }).2 = [Effect.sleep 2] :=
  ⟨by decide,
    (c3_resolution_failure_requeues { initState with playlist := [7, 8] } 7 [8]
      (fun _ => none) (fun _ => AttemptResult.exitSuccess) (by decide) rfl).1,
    (c3_resolution_failure_requeues { initState with playlist := [7, 8] } 7 [8]
      (fun _ => none) (fun _ => AttemptResult.exitSuccess) (by decide) rfl).2.2.1⟩

/-- C4: ingestion makes at most `max_retries = 2` attempts; a successful
process exit yields outcome `completed` and stops retrying; failures or
exceptions retry after a 2 s sleep; exhausting the budget yields the
normal outcome `exhausted`; and after a resolved track is handed to
ingestion the scheduler's playlist no longer contains that pop — the next
iteration advances to the next track with no requeue. -/
theorem c4_ingest_retry_budget :
    max_retries = 2 ∧
    (∀ att : Nat → AttemptResult,
      (ingestGo att max_retries 0).2.count Effect.spawn ≤ max_retries) ∧
    (∀ att : Nat → AttemptResult, att 0 = AttemptResult.exitSuccess →
      ingestGo att max_retries 0 = (IngestExit.completed, [Effect.spawn])) ∧
    (∀ att : Nat → AttemptResult, att 0 ≠ AttemptResult.exitSuccess →
      att 1 = AttemptResult.exitSuccess →
      ingestGo att max_retries 0 =
        (IngestExit.completed, [Effect.spawn, Effect.sleep 2, Effect.spawn])) ∧
    (∀ att : Nat → AttemptResult, att 0 ≠ AttemptResult.exitSuccess →
      att 1 ≠ AttemptResult.exitSuccess →
      ingestGo att max_retries 0 =
        (IngestExit.exhausted,
          [Effect.spawn, Effect.sleep 2, Effect.spawn, Effect.sleep 2])) ∧
    (∀ (s : RadioState) (t : Track) (rest : List Track) (att : Nat → AttemptResult)
        (resolve : Track → Option String) (url : String),
      s.playlist = t :: rest → resolve t = some url →
      (continuous_stream_iteration resolve att s).1.playlist = rest) := by
  refine ⟨rfl, fun att => ingestGo_spawn_le att max_retries 0, ?_, ?_, ?_, ?_⟩
  · intro att h0
    simp [max_retries, ingestGo, h0]
  · intro att h0 h1
    rw [show max_retries = 1 + 1 from rfl, ingestGo_fail_step att 1 0 h0]
    simp [ingestGo, h1]
  · intro att h0 h1
    rw [show max_retries = 1 + 1 from rfl, ingestGo_fail_step att 1 0 h0,
      show (1 : Nat) = 0 + 1 from rfl, ingestGo_fail_step att 0 1 h1]
    simp [ingestGo]
  · intro s t rest att resolve url hq hr
    cases hres : ingestGo att max_retries 0 with
    | mk e effs => simp [continuous_stream_iteration, hq, hr, stream_audio_to_buffer]

theorem c4_witness :
    (ingestGo (fun _ => AttemptResult.exitFailure) max_retries 0).2.count Effect.spawn
        ≤ max_retries ∧
    ingestGo (fun _ => AttemptResult.exitFailure) max_retries 0 =
      (IngestExit.exhausted,
        [Effect.spawn, Effect.sleep 2, Effect.spawn, Effect.sleep 2]) ∧
    (continuous_stream_iteration (fun _ => some "u") (fun _ => AttemptResult.exitFailure)
        { initState with playlist := [3, 4] }).1.playlist = [4] :=
  ⟨c4_ingest_retry_budget.2.1 (fun _ => AttemptResult.exitFailure),
    c4_ingest_retry_budget.2.2.2.2.1 (fun _ => AttemptResult.exitFailure)
      (by decide) (by decide),
    c4_ingest_retry_budget.2.2.2.2.2 { initState with playlist := [3, 4] } 3 [4]
      (fun _ => AttemptResult.exitFailure) (fun _ => some "u") "u" (by decide) rfl⟩

/-- C5: after `stop_music` the status is "stopped", the ffmpeg process (if
any) has been terminated, the buffer is empty and the current track is
cleared; every read of the cleared buffer observes buffer-empty, and the
listener generator's guard fails so each listener loop exits at its next
iteration (i.e. within one 1 s notification-timeout interval). -/
theorem c5_stop_music (s : RadioState) (sess : SessState) (timedOut : Bool) (pos : Nat) :
    (stop_music s).player_status = "stopped" ∧
    (stop_music s).current_track = none ∧
    (stop_music s).audio_buffer = bufClear ∧
    (s.stream_process ≠ none →
      (stop_music s).stream_process = some { terminated := true } ∧
      (stop_music s).is_streaming = false) ∧
    bufRead (stop_music s).audio_buffer pos = none ∧
    generate_live_audio_step (stop_music s) sess timedOut = none := by
  cases hp : s.stream_process <;>
    simp [stop_music, hp, bufRead, bufClear, generate_live_audio_step]

/-- Sample playing state with a live ffmpeg process, for the C5 witness. -/
def c5state : RadioState :=
  { initState with stream_process := some (Proc.mk false), player_status := "playing" }

theorem c5_witness :
    c5state.stream_process ≠ none ∧
    (stop_music c5state).player_status = "stopped" ∧
    (stop_music c5state).stream_process = some (Proc.mk true) ∧
    generate_live_audio_step (stop_music c5state) (SessState.mk 0 []) true = none :=
  ⟨by decide,
    (c5_stop_music c5state (SessState.mk 0 []) true 0).1,
    ((c5_stop_music c5state (SessState.mk 0 []) true 0).2.2.2.1 (by decide)).1,
    (c5_stop_music c5state (SessState.mk 0 []) true 0).2.2.2.2.2⟩

/-- C6: in the ingestion read loop a zero-byte read with the process still
alive appends nothing — it only records the 0.01 s poll sleep and the loop
continues, the chunks appended being exactly those of the same observation
sequence without that read — while a zero-byte read observed after process
termination ends the attempt at that point. -/
theorem c6_zero_byte_read :
    (∀ pre post : List ReadObs,
      (read_loop (pre ++ ReadObs.emptyAlive :: post)).1 = (read_loop (pre ++ post)).1) ∧
    (∀ rest : List ReadObs,
      read_loop (ReadObs.emptyAlive :: rest) =
        ((read_loop rest).1, Effect.sleepSmall :: (read_loop rest).2)) ∧
    (∀ pre post : List ReadObs, ReadObs.emptyDead ∉ pre →
      read_loop (pre ++ ReadObs.emptyDead :: post) = read_loop pre) := by
  refine ⟨?_, fun rest => rfl, ?_⟩
  · intro pre post
    induction pre with
    | nil => simp [read_loop]
    | cons o pre ih => cases o <;> simp [read_loop, ih]
  · intro pre post hpre
    induction pre with
    | nil => simp [read_loop]
    | cons o pre ih =>
      cases o with
      | data c =>
        simp at hpre
        simp [read_loop, ih hpre]
      | emptyAlive =>
        simp at hpre
        simp [read_loop, ih hpre]
      | emptyDead => simp at hpre

theorem c6_witness :
    (ReadObs.emptyDead ∉ [ReadObs.data 5, ReadObs.emptyAlive]) ∧
    (read_loop ([ReadObs.data 5] ++ ReadObs.emptyAlive :: [ReadObs.data 6])).1 =
      (read_loop ([ReadObs.data 5] ++ [ReadObs.data 6])).1 ∧
    read_loop ([ReadObs.data 5, ReadObs.emptyAlive] ++
        ReadObs.emptyDead :: [ReadObs.data 7]) =
      read_loop [ReadObs.data 5, ReadObs.emptyAlive] :=
  ⟨by decide, c6_zero_byte_read.1 [ReadObs.data 5] [ReadObs.data 6],
    c6_zero_byte_read.2.2 [ReadObs.data 5, ReadObs.emptyAlive] [ReadObs.data 7]
      (by decide)⟩

/-- C7: the scheduler loop never terminates as long as raised exceptions
are `Exception`s (the class its handler catches): after any number of
iterations the task is still alive, and an iteration that raises is logged
and recovered with the state unchanged, so subsequent iterations — and
hence subsequent tracks — proceed normally. -/
theorem c7_loop_survives_exceptions
    (bodies : Nat → RadioState → Except PyExn RadioState) (s0 : RadioState)
    (hcatch : ∀ n s msg, bodies n s ≠ Except.error (PyExn.baseExn msg)) :
    (∀ n, (continuous_stream_loop bodies s0 n).isSome = true) ∧
    (∀ n s msg, continuous_stream_loop bodies s0 n = some s →
      bodies n s = Except.error (PyExn.exn msg) →
      continuous_stream_loop bodies s0 (n + 1) = some s) := by
  constructor
  · intro n
    induction n with
    | zero => rfl
    | succ n ih =>
      rcases hn : continuous_stream_loop bodies s0 n with _ | s
      · rw [hn] at ih; simp at ih
      · cases hb : bodies n s with
        | ok s' => simp [continuous_stream_loop, hn, guardedIteration, hb]
        | error e =>
          cases e with
          | exn msg => simp [continuous_stream_loop, hn, guardedIteration, hb]
          | baseExn msg => exact absurd hb (hcatch n s msg)
  · intro n s msg hn hb
    simp [continuous_stream_loop, hn, guardedIteration, hb]

/-- Body oracle for the C7 witness: every iteration raises an ordinary
`Exception`. -/
def crashBodies : Nat → RadioState → Except PyExn RadioState :=
  fun _ _ => Except.error (PyExn.exn "boom")

theorem c7_witness :
    (continuous_stream_loop crashBodies initState 3).isSome = true ∧
    continuous_stream_loop crashBodies initState 1 = some initState :=
  ⟨(c7_loop_survives_exceptions crashBodies initState
      (by intro n s msg; simp [crashBodies])).1 3,
    (c7_loop_survives_exceptions crashBodies initState
      (by intro n s msg; simp [crashBodies])).2 0 initState "boom" rfl rfl⟩

/-- C9: `stop_music` leaves the pending playlist untouched and the
scheduler task alive; the next scheduler iteration on the stopped state
with a non-empty playlist pops the head track, sets it current, and sets
the status back to "playing", with no new enqueue involved. -/
theorem c9_stop_frame (s : RadioState) (t : Track) (rest : List Track)
    (resolve : Track → Option String) (att : Nat → AttemptResult) :
    (stop_music s).playlist = s.playlist ∧
    (stop_music s).stream_task_running = s.stream_task_running ∧
    (s.playlist = t :: rest →
      (continuous_stream_iteration resolve att (stop_music s)).1.player_status
          = "playing" ∧
      (continuous_stream_iteration resolve att (stop_music s)).1.current_track
          = some t) := by
  have hframe : (stop_music s).playlist = s.playlist ∧
      (stop_music s).stream_task_running = s.stream_task_running := by
    cases hp : s.stream_process <;> simp [stop_music, hp]
  refine ⟨hframe.1, hframe.2, fun hq => ?_⟩
  have hq' : (stop_music s).playlist = t :: rest := hframe.1.trans hq
  cases hr : resolve t with
  | none => simp [continuous_stream_iteration, hq', hr]
  | some url =>
    cases hres : ingestGo att max_retries 0 with
    | mk e effs =>
      simp [continuous_stream_iteration, hq', hr, stream_audio_to_buffer]

/-- Sample playing state with one queued track, for the C9 witness. -/
def c9state : RadioState :=
  { initState with playlist := [5], player_status := "playing" }

theorem c9_witness :
    (stop_music c9state).playlist = [5] ∧
    (continuous_stream_iteration (fun _ => none) (fun _ => AttemptResult.exitSuccess)
        (stop_music c9state)).1.player_status = "playing" ∧
    (continuous_stream_iteration (fun _ => none) (fun _ => AttemptResult.exitSuccess)
        (stop_music c9state)).1.current_track = some 5 :=
  ⟨(c9_stop_frame c9state 5 [] (fun _ => none) (fun _ => AttemptResult.exitSuccess)).1,
    ((c9_stop_frame c9state 5 [] (fun _ => none)
        (fun _ => AttemptResult.exitSuccess)).2.2 (by decide)).1,
    ((c9_stop_frame c9state 5 [] (fun _ => none)
        (fun _ => AttemptResult.exitSuccess)).2.2 (by decide)).2⟩

/-! ### Lemmas for `parse_duration` -/

lemma takeWhile_dropWhile_append (p : Char → Bool) (ds : List Char) (l : Char)
    (rest : List Char) (hds : ∀ c ∈ ds, p c = true) (hl : p l = false) :
    (ds ++ l :: rest).takeWhile p = ds ∧ (ds ++ l :: rest).dropWhile p = l :: rest := by
  induction ds with
  | nil => simp [List.takeWhile_cons, List.dropWhile_cons, hl]
  | cons d ds ih =>
    have hd : p d = true := hds d (by simp)
    have h := ih fun c hc => hds c (by simp [hc])
    simp [List.takeWhile_cons, List.dropWhile_cons, hd, h.1, h.2]

lemma tryComp_hit (letter : Char) (ds rest : List Char) (h1 : ds ≠ [])
    (h2 : ∀ c ∈ ds, c.isDigit = true) (hl : letter.isDigit = false) :
    tryComp letter (ds ++ letter :: rest) = (some (digitsToNat ds), rest) := by
  obtain ⟨ht, hd⟩ := takeWhile_dropWhile_append Char.isDigit ds letter rest h2 hl
  cases ds with
  | nil => exact absurd rfl h1
  | cons d ds' =>
    simp only [tryComp, ht, hd]
    simp

lemma tryComp_skip (letter other : Char) (ds rest : List Char)
    (h2 : ∀ c ∈ ds, c.isDigit = true) (hother : other.isDigit = false)
    (hne : other ≠ letter) :
    tryComp letter (ds ++ other :: rest) = (none, ds ++ other :: rest) := by
  obtain ⟨ht, hd⟩ := takeWhile_dropWhile_append Char.isDigit ds other rest h2 hother
  cases ds with
  | nil =>
    simp only [List.nil_append] at ht hd ⊢
    simp only [tryComp, ht, hd]
  | cons d ds' =>
    simp only [tryComp, ht, hd]
    simp [hne]

lemma tryComp_nil (letter : Char) : tryComp letter [] = (none, []) := rfl

lemma parse_duration_PT (rest : List Char) :
    parse_duration (String.mk ('P' :: 'T' :: rest)) =
      ((tryComp 'H' rest).1).getD 0 * 3600 +
        ((tryComp 'M' (tryComp 'H' rest).2).1).getD 0 * 60 +
        ((tryComp 'S' (tryComp 'M' (tryComp 'H' rest).2).2).1).getD 0 := by
  show parse_duration_core ('P' :: 'T' :: rest) = _
  simp [parse_duration_core]

/-- C10: `parse_duration` is total with values in ℕ; on an input of shape
`PT` followed by optional `<digits>H`, `<digits>M`, `<digits>S` components
it returns `h*3600 + m*60 + s` with absent components counting as 0, and
on any input not led by `PT` (so the anchored pattern cannot match) it
returns 0. -/
theorem c10_parse_duration :
    (∀ s : String, 0 ≤ parse_duration s) ∧
    (∀ ho mo so : Option (List Char),
      (∀ ds, ho = some ds → ds ≠ [] ∧ ∀ c ∈ ds, c.isDigit = true) →
      (∀ ds, mo = some ds → ds ≠ [] ∧ ∀ c ∈ ds, c.isDigit = true) →
      (∀ ds, so = some ds → ds ≠ [] ∧ ∀ c ∈ ds, c.isDigit = true) →
      parse_duration (String.mk ('P' :: 'T' ::
          (renderComp 'H' ho ++ renderComp 'M' mo ++ renderComp 'S' so))) =
        valComp ho * 3600 + valComp mo * 60 + valComp so) ∧
    (∀ s : String, s.data.take 2 ≠ ['P', 'T'] → parse_duration s = 0) := by
  refine ⟨fun s => Nat.zero_le _, ?_, ?_⟩
  · intro ho mo so hh hm hs
    rcases ho with _ | dsH <;> rcases mo with _ | dsM <;> rcases so with _ | dsS
    · decide
    · obtain ⟨hS1, hS2⟩ := hs dsS rfl
      have e1 := tryComp_skip 'H' 'S' dsS [] hS2 (by decide) (by decide)
      have e2 := tryComp_skip 'M' 'S' dsS [] hS2 (by decide) (by decide)
      have e3 := tryComp_hit 'S' dsS [] hS1 hS2 (by decide)
      simp [parse_duration_PT, renderComp, valComp, List.append_assoc, e1, e2, e3]
    · obtain ⟨hM1, hM2⟩ := hm dsM rfl
      have e1 := tryComp_skip 'H' 'M' dsM [] hM2 (by decide) (by decide)
      have e2 := tryComp_hit 'M' dsM [] hM1 hM2 (by decide)
      simp [parse_duration_PT, renderComp, valComp, List.append_assoc, e1, e2,
        tryComp_nil]
    · obtain ⟨hM1, hM2⟩ := hm dsM rfl
      obtain ⟨hS1, hS2⟩ := hs dsS rfl
      have e1 := tryComp_skip 'H' 'M' dsM (dsS ++ 'S' :: []) hM2 (by decide) (by decide)
      have e2 := tryComp_hit 'M' dsM (dsS ++ 'S' :: []) hM1 hM2 (by decide)
      have e3 := tryComp_hit 'S' dsS [] hS1 hS2 (by decide)
      simp [parse_duration_PT, renderComp, valComp, List.append_assoc, e1, e2, e3]
    · obtain ⟨hH1, hH2⟩ := hh dsH rfl
      have e1 := tryComp_hit 'H' dsH [] hH1 hH2 (by decide)
      simp [parse_duration_PT, renderComp, valComp, List.append_assoc, e1, tryComp_nil]
    · obtain ⟨hH1, hH2⟩ := hh dsH rfl
      obtain ⟨hS1, hS2⟩ := hs dsS rfl
      have e1 := tryComp_hit 'H' dsH (dsS ++ 'S' :: []) hH1 hH2 (by decide)
      have e2 := tryComp_skip 'M' 'S' dsS [] hS2 (by decide) (by decide)
      have e3 := tryComp_hit 'S' dsS [] hS1 hS2 (by decide)
      simp [parse_duration_PT, renderComp, valComp, List.append_assoc, e1, e2, e3]
    · obtain ⟨hH1, hH2⟩ := hh dsH rfl
      obtain ⟨hM1, hM2⟩ := hm dsM rfl
      have e1 := tryComp_hit 'H' dsH (dsM ++ 'M' :: []) hH1 hH2 (by decide)
      have e2 := tryComp_hit 'M' dsM [] hM1 hM2 (by decide)
      simp [parse_duration_PT, renderComp, valComp, List.append_assoc, e1, e2,
        tryComp_nil]
    · obtain ⟨hH1, hH2⟩ := hh dsH rfl
      obtain ⟨hM1, hM2⟩ := hm dsM rfl
      obtain ⟨hS1, hS2⟩ := hs dsS rfl
      have e1 := tryComp_hit 'H' dsH (dsM ++ 'M' :: (dsS ++ 'S' :: [])) hH1 hH2
        (by decide)
      have e2 := tryComp_hit 'M' dsM (dsS ++ 'S' :: []) hM1 hM2 (by decide)
      have e3 := tryComp_hit 'S' dsS [] hS1 hS2 (by decide)
      simp [parse_duration_PT, renderComp, valComp, List.append_assoc, e1, e2, e3]
  · intro s h
    show parse_duration_core s.data = 0
    rcases hd : s.data with _ | ⟨c1, _ | ⟨c2, rest⟩⟩
    · rfl
    · rfl
    · rw [hd] at h
      simp only [List.take] at h
      rw [parse_duration_core, if_neg]
      intro hc
      exact h (by simp [hc.1, hc.2])

theorem c10_witness :
    parse_duration (String.mk ('P' :: 'T' ::
        (renderComp 'H' none ++ renderComp 'M' (some ['4']) ++
          renderComp 'S' (some ['1', '3'])))) =
      valComp none * 3600 + valComp (some ['4']) * 60 + valComp (some ['1', '3']) ∧
    parse_duration "hello" = 0 :=
  ⟨c10_parse_duration.2.1 none (some ['4']) (some ['1', '3'])
      (fun ds h => nomatch h)
      (fun ds h => by cases h; exact ⟨by decide, by decide⟩)
      (fun ds h => by cases h; exact ⟨by decide, by decide⟩),
    c10_parse_duration.2.2 "hello" (by decide)⟩

/-! ### Lemmas for `extract_video_id` -/

lemma dropLit_self (l r : List Char) : dropLit l (l ++ r) = some r := by
  induction l with
  | nil => rfl
  | cons c l ih => simp [dropLit, ih]

lemma dropLit_eq_some (l cs r : List Char) (h : dropLit l cs = some r) : cs = l ++ r := by
  induction l generalizing cs with
  | nil => simpa [dropLit] using h
  | cons c l ih =>
    cases cs with
    | nil => simp [dropLit] at h
    | cons d ds =>
      by_cases hd : d = c
      · subst hd
        simp only [dropLit, if_pos rfl] at h
        simpa using ih ds h
      · simp [dropLit, hd] at h

lemma dropLit_none_of_bad (lit cs : List Char) (bad : Char) (hbad : bad ∈ lit)
    (hbadId : isIdChar bad = false) (hcs : ∀ c ∈ cs, isIdChar c = true) :
    dropLit lit cs = none := by
  cases h : dropLit lit cs with
  | none => rfl
  | some r =>
    have hcs' : cs = lit ++ r := dropLit_eq_some lit cs r h
    have : isIdChar bad = true := hcs bad (by rw [hcs']; exact List.mem_append_left r hbad)
    rw [this] at hbadId
    cases hbadId

lemma idChar_not_sep (c : Char) (h : isIdChar c = true) : isSepChar c = false := by
  cases hs : isSepChar c with
  | false => rfl
  | true =>
    have : (c = '&' ∨ c = '?') ∨ c = '/' := by simpa [isSepChar] using hs
    rcases this with (rfl | rfl) | rfl <;> exact absurd h (by decide)

lemma idChar_ne_question (c : Char) (h : isIdChar c = true) : (c == '?') = false := by
  cases hq : c == '?' with
  | false => rfl
  | true =>
    have : c = '?' := by simpa using hq
    subst this
    exact absurd h (by decide)

lemma tryAlt_self (lit v : List Char) (hne : v ≠ [])
    (hcap : v.takeWhile (fun c => !isSepChar c) = v) :
    tryAlt lit (lit ++ v) = some v := by
  simp only [tryAlt, dropLit_self, hcap]
  cases v with
  | nil => exact absurd rfl hne
  | cons c cs => simp

lemma searchPat1_cons_none (c : Char) (cs : List Char) (h : tryPat1At (c :: cs) = none) :
    searchPat1 (c :: cs) = searchPat1 cs := by
  simp [searchPat1, h]

lemma searchPat1_head_some (cs cap : List Char) (hcs : cs ≠ [])
    (h : tryPat1At cs = some cap) : searchPat1 cs = some cap := by
  cases cs with
  | nil => exact absurd rfl hcs
  | cons c cs' => simp [searchPat1, h]

lemma searchPat1_append_skip (p cs : List Char)
    (h : ∀ i, i < p.length → tryPat1At (p.drop i ++ cs) = none) :
    searchPat1 (p ++ cs) = searchPat1 cs := by
  induction p with
  | nil => rfl
  | cons c p ih =>
    have h0 : tryPat1At (c :: (p ++ cs)) = none := by
      have := h 0 (by simp)
      simpa using this
    rw [List.cons_append, searchPat1_cons_none c (p ++ cs) h0]
    exact ih fun i hi => by
      have := h (i + 1) (by simpa using Nat.succ_lt_succ hi)
      simpa [List.drop_succ_cons] using this

lemma searchPat2_cons_none (c : Char) (cs : List Char) (h : tryPat2At (c :: cs) = none) :
    searchPat2 (c :: cs) = searchPat2 cs := by
  simp [searchPat2, h]

lemma searchPat2_head_some (cs cap : List Char) (hcs : cs ≠ [])
    (h : tryPat2At cs = some cap) : searchPat2 cs = some cap := by
  cases cs with
  | nil => exact absurd rfl hcs
  | cons c cs' => simp [searchPat2, h]

lemma searchPat2_append_skip (p cs : List Char)
    (h : ∀ i, i < p.length → tryPat2At (p.drop i ++ cs) = none) :
    searchPat2 (p ++ cs) = searchPat2 cs := by
  induction p with
  | nil => rfl
  | cons c p ih =>
    have h0 : tryPat2At (c :: (p ++ cs)) = none := by
      have := h 0 (by simp)
      simpa using this
    rw [List.cons_append, searchPat2_cons_none c (p ++ cs) h0]
    exact ih fun i hi => by
      have := h (i + 1) (by simpa using Nat.succ_lt_succ hi)
      simpa [List.drop_succ_cons] using this

lemma searchPat1_all_id (cs : List Char) (h : ∀ c ∈ cs, isIdChar c = true) :
    searchPat1 cs = none := by
  induction cs with
  | nil => rfl
  | cons c cs ih =>
    have h1 : dropLit watchLit (c :: cs) = none :=
      dropLit_none_of_bad _ _ '.' (by decide) (by decide) h
    have h2 : dropLit shortLit (c :: cs) = none :=
      dropLit_none_of_bad _ _ '.' (by decide) (by decide) h
    have hc : tryPat1At (c :: cs) = none := by
      simp [tryPat1At, tryAlt, h1, h2]
    rw [searchPat1_cons_none c cs hc]
    exact ih fun d hd => h d (List.mem_cons_of_mem c hd)

lemma searchPat2_all_id (cs : List Char) (h : ∀ c ∈ cs, isIdChar c = true) :
    searchPat2 cs = none := by
  induction cs with
  | nil => rfl
  | cons c cs ih =>
    have h1 : dropLit embedLit (c :: cs) = none :=
      dropLit_none_of_bad _ _ '.' (by decide) (by decide) h
    have hc : tryPat2At (c :: cs) = none := by
      simp [tryPat2At, h1]
    rw [searchPat2_cons_none c cs hc]
    exact ih fun d hd => h d (List.mem_cons_of_mem c hd)

lemma string_mk_data (v : String) : String.mk v.data = v := by
  cases v
  rfl

lemma isEmpty_false_of_ne (l : List Char) (h : l ≠ []) : l.isEmpty = false := by
  cases l with
  | nil => exact absurd rfl h
  | cons a as => rfl

/-- C8: for any 11-character identifier over `[a-zA-Z0-9_-]`, the
watch-page form, the short-link form, the embed form and the bare id all
extract that same identifier; and a reference from which no id can be
extracted is answered with HTTP 400 by `play_music` with the state (in
particular the playlist) unchanged — rejected before queueing. -/
theorem c8_extract_video_id :
    (∀ v : String, v.data.length = 11 → (∀ c ∈ v.data, isIdChar c = true) →
      extract_video_id ("https://www.youtube.com/watch?v=" ++ v) = some v ∧
      extract_video_id ("https://youtu.be/" ++ v) = some v ∧
      extract_video_id ("https://www.youtube.com/embed/" ++ v) = some v ∧
      extract_video_id v = some v) ∧
    (∀ (s : RadioState) (url : String) (info : Option Track),
      extract_video_id url = none → play_music s url info = (s, Except.error 400)) := by
  constructor
  · intro v hv1 hv2
    have hne : v.data ≠ [] := by
      intro h
      rw [h] at hv1
      cases hv1
    have hcap1 : v.data.takeWhile (fun c => !isSepChar c) = v.data :=
      List.takeWhile_eq_self_iff.mpr fun c hc => by
        rw [idChar_not_sep c (hv2 c hc)]
        rfl
    have hcap2 : v.data.takeWhile (fun c => !(c == '?')) = v.data :=
      List.takeWhile_eq_self_iff.mpr fun c hc => by
        rw [idChar_ne_question c (hv2 c hc)]
        rfl
    refine ⟨?_, ?_, ?_, ?_⟩
    · -- canonical watch-page form
      have hd : ("https://www.youtube.com/watch?v=" ++ v).data
          = "https://www.".data ++ (watchLit ++ v.data) := by
        rw [String.data_append "https://www.youtube.com/watch?v=" v,
          show "https://www.youtube.com/watch?v=".data
            = "https://www.".data ++ watchLit from rfl,
          List.append_assoc]
      have hskip : searchPat1 ("https://www.".data ++ (watchLit ++ v.data))
          = searchPat1 (watchLit ++ v.data) := by
        refine searchPat1_append_skip _ _ ?_
        intro i hi
        have hi' : i < 12 := hi
        interval_cases i <;> rfl
      have h1 : tryPat1At (watchLit ++ v.data) = some v.data := by
        have ha := tryAlt_self watchLit v.data hne hcap1
        simp [tryPat1At, ha]
      have hfound : searchPat1 (watchLit ++ v.data) = some v.data :=
        searchPat1_head_some _ _ (by simp [watchLit]) h1
      unfold extract_video_id
      rw [hd, hskip, hfound]
    · -- short-link form
      have hd : ("https://youtu.be/" ++ v).data
          = "https://".data ++ (shortLit ++ v.data) := by
        rw [String.data_append "https://youtu.be/" v,
          show "https://youtu.be/".data = "https://".data ++ shortLit from rfl,
          List.append_assoc]
      have hskip : searchPat1 ("https://".data ++ (shortLit ++ v.data))
          = searchPat1 (shortLit ++ v.data) := by
        refine searchPat1_append_skip _ _ ?_
        intro i hi
        have hi' : i < 8 := hi
        interval_cases i <;> rfl
      have h1 : tryPat1At (shortLit ++ v.data) = some v.data := by
        have hw : tryAlt watchLit (shortLit ++ v.data) = none := rfl
        have hs := tryAlt_self shortLit v.data hne hcap1
        simp [tryPat1At, hw, hs]
      have hfound : searchPat1 (shortLit ++ v.data) = some v.data :=
        searchPat1_head_some _ _ (by simp [shortLit]) h1
      unfold extract_video_id
      rw [hd, hskip, hfound]
    · -- embed form
      have hdA : ("https://www.youtube.com/embed/" ++ v).data
          = "https://www.youtube.com/embed/".data ++ v.data :=
        String.data_append "https://www.youtube.com/embed/" v
      have hp1 : searchPat1 ("https://www.youtube.com/embed/".data ++ v.data) = none := by
        have hskip : searchPat1 ("https://www.youtube.com/embed/".data ++ v.data)
            = searchPat1 v.data := by
          refine searchPat1_append_skip _ _ ?_
          intro i hi
          have hi' : i < 30 := hi
          interval_cases i <;> rfl
        rw [hskip]
        exact searchPat1_all_id v.data hv2
      have hconv : "https://www.youtube.com/embed/".data ++ v.data
          = "https://www.".data ++ (embedLit ++ v.data) := by
        rw [show "https://www.youtube.com/embed/".data
          = "https://www.".data ++ embedLit from rfl, List.append_assoc]
      have h1 : tryPat2At (embedLit ++ v.data) = some v.data := by
        simp only [tryPat2At, dropLit_self, hcap2]
        rw [isEmpty_false_of_ne v.data hne]
        simp
      have hp2 : searchPat2 ("https://www.".data ++ (embedLit ++ v.data))
          = some v.data := by
        have hskip : searchPat2 ("https://www.".data ++ (embedLit ++ v.data))
            = searchPat2 (embedLit ++ v.data) := by
          refine searchPat2_append_skip _ _ ?_
          intro i hi
          have hi' : i < 12 := hi
          interval_cases i <;> rfl
        rw [hskip]
        exact searchPat2_head_some _ _ (by simp [embedLit]) h1
      unfold extract_video_id
      rw [hdA, hp1, hconv, hp2]
    · -- bare identifier
      have h1 : searchPat1 v.data = none := searchPat1_all_id v.data hv2
      have h2 : searchPat2 v.data = none := searchPat2_all_id v.data hv2
      have h3 : matchPat3 v.data = some v.data := by
        rw [matchPat3, if_pos ⟨hv1, hv2⟩]
      unfold extract_video_id
      rw [h1, h2, h3]
      simp [string_mk_data]
  · intro s url info h
    simp [play_music, h]

theorem c8_witness :
    extract_video_id ("https://www.youtube.com/watch?v=" ++ "dQw4w9WgXcQ")
        = some "dQw4w9WgXcQ" ∧
    extract_video_id "dQw4w9WgXcQ" = some "dQw4w9WgXcQ" ∧
    play_music initState "https://example.com" none = (initState, Except.error 400) :=
  ⟨(c8_extract_video_id.1 "dQw4w9WgXcQ" (by decide) (by decide)).1,
    (c8_extract_video_id.1 "dQw4w9WgXcQ" (by decide) (by decide)).2.2.2,
    c8_extract_video_id.2 initState "https://example.com" none (by decide)⟩

/-! ### Shape of the buffer after `k` appends -/

lemma bufAfter_total (k : Nat) : (bufAfter k).total = k := by
  induction k with
  | zero => rfl
  | succ k ih => simp [bufAfter, bufAppend, ih]

lemma bufAfter_data (k : Nat) :
    (bufAfter k).data = (List.range k).drop (k - maxlen) := by
  induction k with
  | zero => rfl
  | succ k ih =>
    show (bufAppend (bufAfter k)).data = _
    simp only [bufAppend, ih, bufAfter_total]
    have hsub : k - maxlen ≤ (List.range k).length := by simp
    have h1 : (List.range k).drop (k - maxlen) ++ [k]
        = (List.range (k + 1)).drop (k - maxlen) := by
      rw [List.range_succ, List.drop_append_of_le_length hsub]
    rw [h1]
    have hlen : ((List.range (k + 1)).drop (k - maxlen)).length
        = (k + 1) - (k - maxlen) := by simp
    rw [hlen, List.drop_drop,
      show (k - maxlen) + (((k + 1) - (k - maxlen)) - maxlen) = (k + 1) - maxlen from by
        unfold maxlen
        omega]

lemma bufAfter_length (k : Nat) : (bufAfter k).data.length = min k maxlen := by
  rw [bufAfter_data]
  simp
  omega

lemma bufAfter_get (k pos : Nat) (h : pos < (bufAfter k).data.length) :
    (bufAfter k).data[pos] = (k - maxlen) + pos := by
  simp only [bufAfter_data, List.getElem_drop, List.getElem_range]

/-! ### Trace lemmas for the listener session -/

lemma chunkIds_append (l1 l2 : List LEvent) :
    chunkIds (l1 ++ l2) = chunkIds l1 ++ chunkIds l2 := by
  induction l1 with
  | nil => rfl
  | cons e l1 ih => cases e <;> simp [chunkIds, ih]

lemma chain'_lt_concat (l : List Nat) (a : Nat) (hc : List.Chain' (· < ·) l)
    (ha : ∀ x ∈ l, x < a) : List.Chain' (· < ·) (l ++ [a]) := by
  rw [List.chain'_append]
  refine ⟨hc, List.chain'_singleton a, ?_⟩
  intro x hx y hy
  simp at hy
  subst hy
  exact ha x (List.mem_of_mem_getLast? hx)

lemma listenStep_deliver (k : Nat) (s : SessState) (t : Bool)
    (h : s.pos < (bufAfter k).data.length) :
    listenStep (bufAfter k) s t =
      { pos := s.pos + 1,
        delivered := s.delivered ++ [LEvent.chunk ((k - maxlen) + s.pos)] } := by
  rw [listenStep, dif_pos h, bufAfter_get k s.pos h]

lemma listenStep_wait (k : Nat) (s : SessState) (t : Bool)
    (h : ¬s.pos < (bufAfter k).data.length) :
    listenStep (bufAfter k) s t =
      if t then { s with delivered := s.delivered ++ [LEvent.silence] } else s := by
  rw [listenStep, dif_neg h]

lemma countAppends_cons_append (acts : List Act) :
    countAppends (Act.append :: acts) = countAppends acts + 1 := by
  simp [countAppends]

lemma countAppends_cons_listen (t : Bool) (acts : List Act) :
    countAppends (Act.listen t :: acts) = countAppends acts := by
  simp [countAppends]

lemma listenStep_silence (k : Nat) (s : SessState)
    (h : ¬s.pos < (bufAfter k).data.length) :
    listenStep (bufAfter k) s true =
      { s with delivered := s.delivered ++ [LEvent.silence] } := by
  rw [listenStep, dif_neg h]
  simp

lemma listenStep_noop (k : Nat) (s : SessState)
    (h : ¬s.pos < (bufAfter k).data.length) :
    listenStep (bufAfter k) s false = s := by
  rw [listenStep, dif_neg h]
  simp

lemma trace_inv (acts : List Act) (k : Nat) (s : SessState) (p0 : Nat)
    (hpos : p0 ≤ s.pos)
    (hlow : ∀ i ∈ chunkIds s.delivered, p0 ≤ i)
    (hhigh : ∀ i ∈ chunkIds s.delivered, i < (k - maxlen) + s.pos)
    (hchain : List.Chain' (· < ·) (chunkIds s.delivered))
    (hevict : LEvent.evicted ∉ s.delivered) :
    p0 ≤ (runTrace (bufAfter k) s acts).2.pos ∧
    (∀ i ∈ chunkIds (runTrace (bufAfter k) s acts).2.delivered, p0 ≤ i) ∧
    (∀ i ∈ chunkIds (runTrace (bufAfter k) s acts).2.delivered,
      i < ((k + countAppends acts) - maxlen) + (runTrace (bufAfter k) s acts).2.pos) ∧
    List.Chain' (· < ·) (chunkIds (runTrace (bufAfter k) s acts).2.delivered) ∧
    LEvent.evicted ∉ (runTrace (bufAfter k) s acts).2.delivered := by
  induction acts generalizing k s with
  | nil =>
    refine ⟨hpos, hlow, ?_, hchain, hevict⟩
    simpa [runTrace, countAppends] using hhigh
  | cons a acts ih =>
    cases a with
    | append =>
      have hstep : runTrace (bufAfter k) s (Act.append :: acts)
          = runTrace (bufAfter (k + 1)) s acts := rfl
      have hhigh' : ∀ i ∈ chunkIds s.delivered, i < ((k + 1) - maxlen) + s.pos := by
        intro i hi
        have h1 := hhigh i hi
        have h2 : k - maxlen ≤ (k + 1) - maxlen := Nat.sub_le_sub_right (Nat.le_succ k) maxlen
        omega
      have h' := ih (k + 1) s hpos hlow hhigh' hchain hevict
      rw [hstep, countAppends_cons_append,
        show k + (countAppends acts + 1) = (k + 1) + countAppends acts from by omega]
      exact h'
    | listen t =>
      have hstep : runTrace (bufAfter k) s (Act.listen t :: acts)
          = runTrace (bufAfter k) (listenStep (bufAfter k) s t) acts := rfl
      rw [hstep, countAppends_cons_listen]
      by_cases hp : s.pos < (bufAfter k).data.length
      · rw [listenStep_deliver k s t hp]
        refine ih k _ ?_ ?_ ?_ ?_ ?_
        · show p0 ≤ s.pos + 1
          omega
        · intro i hi
          simp only [chunkIds_append, chunkIds, List.mem_append] at hi
          rcases hi with hi | hi
          · exact hlow i hi
          · simp at hi
            omega
        · intro i hi
          show i < (k - maxlen) + (s.pos + 1)
          simp only [chunkIds_append, chunkIds, List.mem_append] at hi
          rcases hi with hi | hi
          · have := hhigh i hi
            omega
          · simp at hi
            omega
        · show List.Chain' (· < ·)
            (chunkIds (s.delivered ++ [LEvent.chunk ((k - maxlen) + s.pos)]))
          rw [chunkIds_append]
          exact chain'_lt_concat _ _ hchain hhigh
        · show LEvent.evicted ∉ s.delivered ++ [LEvent.chunk ((k - maxlen) + s.pos)]
          intro hmem
          rcases List.mem_append.mp hmem with hmem | hmem
          · exact hevict hmem
          · simp at hmem
      · cases t with
        | false =>
          rw [listenStep_noop k s hp]
          exact ih k s hpos hlow hhigh hchain hevict
        | true =>
          rw [listenStep_silence k s hp]
          refine ih k _ hpos ?_ ?_ ?_ ?_
          · intro i hi
            simp only [chunkIds_append, chunkIds, List.append_nil] at hi
            exact hlow i hi
          · intro i hi
            show i < (k - maxlen) + s.pos
            simp only [chunkIds_append, chunkIds, List.append_nil] at hi
            exact hhigh i hi
          · show List.Chain' (· < ·) (chunkIds (s.delivered ++ [LEvent.silence]))
            simpa [chunkIds_append, chunkIds] using hchain
          · show LEvent.evicted ∉ s.delivered ++ [LEvent.silence]
            intro hmem
            rcases List.mem_append.mp hmem with hmem | hmem
            · exact hevict hmem
            · simp at hmem

lemma trace_inv_tight (acts : List Act) (k : Nat) (s : SessState) (p0 : Nat)
    (hcap : k + countAppends acts ≤ maxlen)
    (hpos : p0 ≤ s.pos)
    (hids : chunkIds s.delivered = List.range' p0 (s.pos - p0)) :
    p0 ≤ (runTrace (bufAfter k) s acts).2.pos ∧
    chunkIds (runTrace (bufAfter k) s acts).2.delivered
      = List.range' p0 ((runTrace (bufAfter k) s acts).2.pos - p0) := by
  induction acts generalizing k s with
  | nil => exact ⟨hpos, by simpa [runTrace] using hids⟩
  | cons a acts ih =>
    cases a with
    | append =>
      have hstep : runTrace (bufAfter k) s (Act.append :: acts)
          = runTrace (bufAfter (k + 1)) s acts := rfl
      rw [hstep]
      refine ih (k + 1) s ?_ hpos hids
      rw [countAppends_cons_append] at hcap
      omega
    | listen t =>
      have hstep : runTrace (bufAfter k) s (Act.listen t :: acts)
          = runTrace (bufAfter k) (listenStep (bufAfter k) s t) acts := rfl
      rw [hstep]
      have hcap' : k + countAppends acts ≤ maxlen := by
        rw [countAppends_cons_listen] at hcap
        exact hcap
      by_cases hp : s.pos < (bufAfter k).data.length
      · rw [listenStep_deliver k s t hp]
        have hid0 : (k - maxlen) + s.pos = s.pos := by omega
        refine ih k _ hcap' ?_ ?_
        · show p0 ≤ s.pos + 1
          omega
        · show chunkIds (s.delivered ++ [LEvent.chunk ((k - maxlen) + s.pos)])
            = List.range' p0 (s.pos + 1 - p0)
          rw [chunkIds_append, hids, hid0]
          show List.range' p0 (s.pos - p0) ++ [s.pos] = List.range' p0 (s.pos + 1 - p0)
          rw [show s.pos + 1 - p0 = (s.pos - p0) + 1 from by omega, List.range'_concat]
          rw [show p0 + 1 * (s.pos - p0) = s.pos from by omega]
      · cases t with
        | false =>
          rw [listenStep_noop k s hp]
          exact ih k s hcap' hpos hids
        | true =>
          rw [listenStep_silence k s hp]
          refine ih k _ hcap' hpos ?_
          show chunkIds (s.delivered ++ [LEvent.silence]) = List.range' p0 (s.pos - p0)
          rw [chunkIds_append]
          simpa [chunkIds] using hids

lemma chain'_succ_range' (s n : Nat) :
    List.Chain' (fun a b => b = a + 1) (List.range' s n) := by
  induction n generalizing s with
  | zero => simp
  | succ n ih =>
    rw [List.range'_succ, List.chain'_cons']
    refine ⟨?_, ih (s + 1)⟩
    intro y hy
    cases n with
    | zero => simp at hy
    | succ m =>
      rw [List.range'_succ] at hy
      simp at hy
      omega

/-- C1 (amended): in any interleaving of writer appends and listener
iterations by a listener that connected live-joining a buffer holding `k`
chunks, the delivered chunk sequence numbers are strictly increasing, but
the code never delivers an `Evicted` fast-forward event, and the delivered
sequence is guaranteed gap-free only while at most `C = maxlen = 1000`
chunks have ever been appended: the session cursor is a deque-relative
index, so once the deque is full a lagging listener silently skips chunks
instead of receiving `Evicted`. -/
theorem c1_amended (k : Nat) (acts : List Act) :
    List.Chain' (· < ·) (chunkIds (runTrace (bufAfter k)
        (SessState.mk (sessionInit (bufAfter k).data.length) []) acts).2.delivered) ∧
    LEvent.evicted ∉ (runTrace (bufAfter k)
        (SessState.mk (sessionInit (bufAfter k).data.length) []) acts).2.delivered ∧
    (k + countAppends acts ≤ maxlen →
      List.Chain' (fun a b => b = a + 1) (chunkIds (runTrace (bufAfter k)
        (SessState.mk (sessionInit (bufAfter k).data.length) []) acts).2.delivered)) := by
  have h := trace_inv acts k (SessState.mk (sessionInit (bufAfter k).data.length) [])
    (sessionInit (bufAfter k).data.length) (le_refl _) (by simp [chunkIds])
    (by simp [chunkIds]) (by simp [chunkIds]) (by simp)
  refine ⟨h.2.2.2.1, h.2.2.2.2, fun hcap => ?_⟩
  have ht := trace_inv_tight acts k (SessState.mk (sessionInit (bufAfter k).data.length) [])
    (sessionInit (bufAfter k).data.length) hcap (le_refl _) (by simp [chunkIds])
  rw [ht.2]
  exact chain'_succ_range' _ _

theorem c1_amended_witness :
    List.Chain' (· < ·) (chunkIds (runTrace (bufAfter 0)
        (SessState.mk (sessionInit (bufAfter 0).data.length) [])
        [Act.append, Act.listen false]).2.delivered) ∧
    List.Chain' (fun a b => b = a + 1) (chunkIds (runTrace (bufAfter 0)
        (SessState.mk (sessionInit (bufAfter 0).data.length) [])
        [Act.append, Act.listen false]).2.delivered) :=
  ⟨(c1_amended 0 [Act.append, Act.listen false]).1,
    (c1_amended 0 [Act.append, Act.listen false]).2.2 (by decide)⟩

/-- C1 (counterexample to the claim as stated): a listener live-joins a
full buffer (`k = C = 1000` chunks appended, cursor 990, well within the
retention window) and reads one chunk; the writer appends one chunk; the
listener reads again.  It receives chunks 990 and then 992 — consecutive
deliveries with non-adjacent sequence numbers — yet no `Evicted`
fast-forward event was ever delivered, contradicting both "no gaps while
within the retention window" and "non-adjacent deliveries are preceded by
an Evicted event"; no read ever returns `Evicted`. -/
theorem c1_counterexample :
    (runTrace (bufAfter maxlen)
        (SessState.mk (sessionInit (bufAfter maxlen).data.length) [])
        [Act.listen false, Act.append, Act.listen false]).2.delivered
      = [LEvent.chunk 990, LEvent.chunk 992] ∧
    LEvent.evicted ∉ (runTrace (bufAfter maxlen)
        (SessState.mk (sessionInit (bufAfter maxlen).data.length) [])
        [Act.listen false, Act.append, Act.listen false]).2.delivered ∧
    (992 : Nat) ≠ 990 + 1 := by
  have hL : (bufAfter maxlen).data.length = 1000 := by
    rw [bufAfter_length]
    show min maxlen maxlen = 1000
    rw [Nat.min_self]
    rfl
  have hinit : sessionInit (bufAfter maxlen).data.length = 990 := by
    rw [hL]
    decide
  have h1 : listenStep (bufAfter maxlen) (SessState.mk 990 []) false
      = SessState.mk 991 [LEvent.chunk 990] := by
    have hp : (990 : Nat) < (bufAfter maxlen).data.length := by
      rw [hL]
      omega
    rw [listenStep_deliver maxlen (SessState.mk 990 []) false hp]
    show SessState.mk (990 + 1) ([] ++ [LEvent.chunk ((maxlen - maxlen) + 990)]) = _
    rw [show (maxlen - maxlen) + 990 = 990 from by omega]
    rfl
  have h2 : listenStep (bufAfter (maxlen + 1)) (SessState.mk 991 [LEvent.chunk 990]) false
      = SessState.mk 992 [LEvent.chunk 990, LEvent.chunk 992] := by
    have hp : (991 : Nat) < (bufAfter (maxlen + 1)).data.length := by
      rw [bufAfter_length]
      show 991 < min (maxlen + 1) maxlen
      rw [Nat.min_eq_right (Nat.le_succ maxlen)]
      show 991 < 1000
      omega
    rw [listenStep_deliver (maxlen + 1) (SessState.mk 991 [LEvent.chunk 990]) false hp]
    show SessState.mk (991 + 1)
        ([LEvent.chunk 990] ++ [LEvent.chunk (((maxlen + 1) - maxlen) + 991)]) = _
    rw [show ((maxlen + 1) - maxlen) + 991 = 992 from by omega]
    rfl
  have hb : bufAppend (bufAfter maxlen) = bufAfter (maxlen + 1) := rfl
  have hrun : runTrace (bufAfter maxlen)
      (SessState.mk (sessionInit (bufAfter maxlen).data.length) [])
      [Act.listen false, Act.append, Act.listen false]
      = (bufAfter (maxlen + 1), SessState.mk 992 [LEvent.chunk 990, LEvent.chunk 992]) := by
    rw [hinit]
    show List.foldl traceStep (bufAfter maxlen, SessState.mk 990 [])
        [Act.listen false, Act.append, Act.listen false] = _
    rw [List.foldl_cons]
    rw [show traceStep (bufAfter maxlen, SessState.mk 990 []) (Act.listen false)
        = (bufAfter maxlen, SessState.mk 991 [LEvent.chunk 990]) from by
      show (bufAfter maxlen, listenStep (bufAfter maxlen) (SessState.mk 990 []) false) = _
      rw [h1]]
    rw [List.foldl_cons]
    rw [show traceStep (bufAfter maxlen, SessState.mk 991 [LEvent.chunk 990]) Act.append
        = (bufAfter (maxlen + 1), SessState.mk 991 [LEvent.chunk 990]) from by
      show (bufAppend (bufAfter maxlen), SessState.mk 991 [LEvent.chunk 990]) = _
      rw [hb]]
    rw [List.foldl_cons]
    rw [show traceStep (bufAfter (maxlen + 1), SessState.mk 991 [LEvent.chunk 990])
          (Act.listen false)
        = (bufAfter (maxlen + 1), SessState.mk 992 [LEvent.chunk 990, LEvent.chunk 992]) from by
      show (bufAfter (maxlen + 1),
        listenStep (bufAfter (maxlen + 1)) (SessState.mk 991 [LEvent.chunk 990]) false) = _
      rw [h2]]
    rw [List.foldl_nil]
  rw [hrun]
  refine ⟨rfl, by simp, by omega⟩

/-- C2: a listener connecting while the buffer holds `L` chunks starts
with its cursor at `max(0, L - K)` for `K = lookback = 10`, and in any
subsequent interleaving its first delivered buffer chunk has sequence
number at least `max(0, L - K)` — in particular never chunk 0 when
`L > K` (live-join, never a full replay). -/
theorem c2_live_join (k : Nat) (acts : List Act) :
    sessionInit (bufAfter k).data.length
      = max 0 ((bufAfter k).data.length - lookback) ∧
    (∀ i, (chunkIds (runTrace (bufAfter k)
          (SessState.mk (sessionInit (bufAfter k).data.length) []) acts).2.delivered).head?
        = some i →
      sessionInit (bufAfter k).data.length ≤ i ∧
      (lookback < (bufAfter k).data.length → 0 < i)) := by
  refine ⟨rfl, fun i hi => ?_⟩
  have h := trace_inv acts k (SessState.mk (sessionInit (bufAfter k).data.length) [])
    (sessionInit (bufAfter k).data.length) (le_refl _) (by simp [chunkIds])
    (by simp [chunkIds]) (by simp [chunkIds]) (by simp)
  have hmem : i ∈ chunkIds (runTrace (bufAfter k)
      (SessState.mk (sessionInit (bufAfter k).data.length) []) acts).2.delivered :=
    List.mem_of_mem_head? hi
  have hge := h.2.1 i hmem
  refine ⟨hge, fun hL => ?_⟩
  have hpos : sessionInit (bufAfter k).data.length
      = (bufAfter k).data.length - lookback := by
    show max 0 ((bufAfter k).data.length - lookback) = _
    exact Nat.zero_max _
  omega

theorem c2_witness :
    (chunkIds (runTrace (bufAfter 20)
        (SessState.mk (sessionInit (bufAfter 20).data.length) [])
        [Act.listen false]).2.delivered).head? = some 10 ∧
    sessionInit (bufAfter 20).data.length ≤ 10 ∧
    (lookback < (bufAfter 20).data.length → 0 < 10) :=
  ⟨by decide, (c2_live_join 20 [Act.listen false]).2 10 (by decide)⟩
